import Mathlib

/-!
Verification of the formy multipart/form-data encoder (package formy,
file multipart.go). The repository source contains two revisions of the
same file; functions that are identical in both revisions are defined
once, and the three functions that differ (Close, fileFieldHeader,
WriteFile) are defined in namespaces V1 (first revision) and V2 (second
revision, the one the test file compiles against).

External collaborators are modelled per the interfaces the spec gives
for them: the part-framing writer (mime/multipart.Writer) is modelled as
an event trace (open part with headers, append body bytes, write the
terminating boundary), the content sniffer as an arbitrary total
function from the sniffed bytes to a MIME type string, the JSON encoder
as an arbitrary total function from the value to its serialization, and
the outer sink as an in-memory buffer (as in the repository test), so
frame-writer operations themselves never fail.
-/

namespace Formy

/-- A MIME part header as built by the encoder: it only ever carries a
Content-Disposition value and an optional Content-Type value
(textproto.MIMEHeader restricted to the two keys the code uses). -/
structure MIMEHeader where
  contentDisposition : String
  contentType : Option String
deriving DecidableEq, Repr

/-- One observable action of the part-framing writer on the underlying
sink: opening a part (boundary line plus headers), appending raw body
bytes, or writing the terminating boundary at close. -/
inductive OutEvent where
  | partOpen (h : MIMEHeader)
  | bytes (data : String)
  | closeBoundary
deriving DecidableEq, Repr

/-- The errors the encoder itself can latch. With the in-memory sink of
the model, frame-writer operations do not fail, so only the
precondition errors produced by fmt.Errorf in the source arise. -/
inductive GoError where
  | emptyFieldName
  | emptyFieldValue
  | emptyFileName
  | emptyFileReader
deriving DecidableEq, Repr

/-- Replace every occurrence of the character c in a character list by
the replacement list r, in one left-to-right pass. -/
def replaceChar (c : Char) (r : List Char) : List Char → List Char
  | [] => []
  | x :: xs =>
    if x = c then r ++ replaceChar c r xs else x :: replaceChar c r xs

/-- The single pass performed by the quoteReplacer of multipart.go,
strings.NewReplacer with the pairs backslash to double backslash and
double quote to double backslash: at each position the first matching
pattern is replaced (the patterns are distinct single characters, so
this is a simultaneous substitution). Note the second replacement
string in the source is the Go literal of two backslashes, so a double
quote is replaced by two backslashes and the quote character itself is
dropped. -/
def quoteReplace : List Char → List Char
  | [] => []
  | x :: xs =>
    if x = '\\' then '\\' :: '\\' :: quoteReplace xs
    else if x = '"' then '\\' :: '\\' :: quoteReplace xs
    else x :: quoteReplace xs

/-- escapeQuotes of multipart.go: quoteReplacer.Replace(raw). -/
def escapeQuotes (raw : String) : String :=
  String.mk (quoteReplace raw.data)

/-! Model of the default textual rendering of float values by the Go
fmt package (verb v, which is strconv FormatFloat with format g and
precision -1): the shortest decimal that reads back, under correct
rounding to the IEEE format, as exactly the given value; rendered in
fixed notation unless the decimal exponent is below -4 or at least 6.
A float value is represented exactly as an integer significand times a
power of two; exact arithmetic is done on positive fractions
represented as numerator/denominator pairs of naturals. -/

/-- The exact positive fraction m times 2 to the e, as a
numerator/denominator pair. -/
def qOfPow2 (m : Nat) (e : Int) : Nat × Nat :=
  if 0 ≤ e then (m * 2 ^ e.toNat, 1) else (m, 2 ^ (-e).toNat)

/-- Multiply an exact positive fraction by 2 to the g. -/
def qMulPow2 (q : Nat × Nat) (g : Int) : Nat × Nat :=
  if 0 ≤ g then (q.1 * 2 ^ g.toNat, q.2) else (q.1, q.2 * 2 ^ (-g).toNat)

/-- The exact fraction 10 to the g, as a numerator/denominator pair. -/
def qPow10 (g : Int) : Nat × Nat :=
  if 0 ≤ g then (10 ^ g.toNat, 1) else (1, 10 ^ (-g).toNat)

/-- Equality test of two exact fractions by cross multiplication. -/
def qEqB (a b : Nat × Nat) : Bool :=
  a.1 * b.2 == b.1 * a.2

/-- For a positive fraction q and base at least 2, the integer E with
base to the E at most q and q below base to the E plus one, found by
repeated scaling; fuel bounds the search and is ample for every value
arising from an IEEE float. -/
def findExpAux (base : Nat) : Nat → Nat × Nat → Int → Int
  | 0, _, e => e
  | fuel + 1, q, e =>
    if q.1 < q.2 then findExpAux base fuel (q.1 * base, q.2) (e - 1)
    else if q.2 * base ≤ q.1 then findExpAux base fuel (q.1, q.2 * base) (e + 1)
    else e

/-- Round the positive fraction n over d to the nearest integer, ties
to even (the rounding IEEE binary arithmetic uses). -/
def natRoundHalfEven (n d : Nat) : Nat :=
  let f := n / d
  let r := n % d
  if 2 * r < d then f
  else if d < 2 * r then f + 1
  else if f % 2 = 0 then f else f + 1

/-- Correctly round a positive exact fraction to the nearest value of a
binary floating-point format with the given number of significand bits
(24 for float32, 53 for float64), returned as an exact fraction.
Overflow and the subnormal range are not modelled; every value the
theorems touch is a normal float. -/
def roundToFormat (mantBits : Nat) (q : Nat × Nat) : Nat × Nat :=
  if q.1 = 0 then (0, 1)
  else
    let e2 : Int := findExpAux 2 4400 q 0
    let e : Int := e2 - ((mantBits : Int) - 1)
    let scaled := qMulPow2 q (-e)
    qOfPow2 (natRoundHalfEven scaled.1 scaled.2) e

/-- Try to express the positive fraction a (with decimal exponent E) by
a decimal significand of exactly k significant digits that rounds back
to a in the given format: of the two nearest k-digit candidates, return
one that rounds back to a, preferring the closer (ties to the even
significand). -/
def shortestAt (mantBits : Nat) (a : Nat × Nat) (E : Int) (k : Nat) : Option Nat :=
  let s := qPow10 (E - (k : Int) + 1)
  let lo := a.1 * s.2 / (a.2 * s.1)
  let okLo := decide (0 < lo) && qEqB (roundToFormat mantBits (lo * s.1, s.2)) a
  let okHi := qEqB (roundToFormat mantBits ((lo + 1) * s.1, s.2)) a
  if okLo && okHi then
    let twoA := 2 * a.1 * s.2
    let mid := (2 * lo + 1) * s.1 * a.2
    if twoA < mid then some lo
    else if mid < twoA then some (lo + 1)
    else if lo % 2 = 0 then some lo else some (lo + 1)
  else if okLo then some lo
  else if okHi then some (lo + 1)
  else none

/-- Search for the least number of significant digits, from k upward,
that represents a exactly in the given format; returns the decimal
significand and its digit count. The fuel 25 exceeds the 17 digits any
float64 needs; the fuel-exhausted fallback is never reached for a value
of an IEEE format. -/
def shortestFrom (mantBits : Nat) (a : Nat × Nat) (E : Int) (k : Nat) : Nat → Nat × Nat
  | 0 => (a.1 * (qPow10 ((k : Int) - 1 - E)).1 / (a.2 * (qPow10 ((k : Int) - 1 - E)).2), k)
  | fuel + 1 =>
    match shortestAt mantBits a E k with
    | some c => (c, k)
    | none => shortestFrom mantBits a E (k + 1) fuel

/-- A string of n zero digits. -/
def zeros (n : Nat) : String :=
  String.mk (List.replicate n '0')

/-- Lay out a decimal significand c of k digits with decimal exponent E
the way the Go g format with shortest precision does: e-notation when E
is below -4 or at least 6, otherwise fixed notation. -/
def renderG (c k : Nat) (E : Int) : String :=
  let ds := toString c
  if E < -4 ∨ 6 ≤ E then
    let mant := if k = 1 then ds else ds.take 1 ++ "." ++ ds.drop 1
    let eabs := E.natAbs
    let esign := if E < 0 then "-" else "+"
    let edig := if eabs < 10 then "0" ++ toString eabs else toString eabs
    mant ++ "e" ++ esign ++ edig
  else if 0 ≤ E then
    if k ≤ E.toNat + 1 then ds ++ zeros (E.toNat + 1 - k)
    else ds.take (E.toNat + 1) ++ "." ++ ds.drop (E.toNat + 1)
  else
    "0." ++ zeros ((-E).toNat - 1) ++ ds

/-- Render the float value m times 2 to the e (of the format with the
given significand width) as Go fmt does by default: sign, then the
shortest round-tripping decimal in g layout. -/
def formatShortest (mantBits : Nat) (m e : Int) : String :=
  if m = 0 then "0"
  else
    let a := qOfPow2 m.natAbs e
    let E0 := findExpAux 10 4400 a 0
    let p := shortestFrom mantBits a E0 1 25
    let c := p.1
    let k := p.2
    let cE := if c = 10 ^ k then (1, 1, E0 + 1) else (c, k, E0)
    let core := renderG cE.1 cE.2.1 cE.2.2
    if m < 0 then "-" ++ core else core

/-- The escaping used internally by the Go standard library
mime/multipart package (for Writer.WriteField / CreateFormField):
backslash to double backslash, double quote to backslash-quote. -/
def stdQuoteReplace : List Char → List Char
  | [] => []
  | x :: xs =>
    if x = '\\' then '\\' :: '\\' :: stdQuoteReplace xs
    else if x = '"' then '\\' :: '"' :: stdQuoteReplace xs
    else x :: stdQuoteReplace xs

/-- escapeQuotes of the Go standard library mime/multipart package. -/
def multipartEscapeQuotes (raw : String) : String :=
  String.mk (stdQuoteReplace raw.data)

/-- The dynamic values passed to the text-field writers (the Go typed
wrappers pass string, int, bool, float32 or float64 boxed as any). A
float is carried as its exact IEEE value, an integer significand m
times 2 to the e. -/
inductive GoValue where
  | str (s : String)
  | int (i : Int)
  | bool (b : Bool)
  | float32 (m e : Int)
  | float64 (m e : Int)
deriving DecidableEq, Repr

/-- The text fmt.Fprint produces for one non-nil value: strings as is,
integers in decimal, booleans as true or false, floats in the shortest
round-trip g layout. -/
def fprintRender : GoValue → String
  | .str s => s
  | .int i => toString i
  | .bool b => if b then "true" else "false"
  | .float32 m e => formatShortest 24 m e
  | .float64 m e => formatShortest 53 m e

/-- The text fmt.Fprint produces for a value of type any that may be
nil: Go prints a nil interface value as the five characters
left-angle n i l right-angle. -/
def fprintRenderAny : Option GoValue → String
  | none => "<nil>"
  | some v => fprintRender v

/-- The state of a formy Writer: the event trace of the part-framing
writer on the sink, how many times the frame writer has been closed,
the content-type detection flag, and the latched first error. The
trace and close count stand for the fields of the wrapped
multipart.Writer (mw); detectCt and firstErr are the two own fields of
the struct. -/
structure Writer where
  trace : List OutEvent
  mwCloseCount : Nat
  detectCt : Bool
  firstErr : Option GoError
deriving DecidableEq, Repr

/-- NewWriter: fresh multipart writer over the sink, detection on by
default, no error. -/
def NewWriter : Writer :=
  { trace := [], mwCloseCount := 0, detectCt := true, firstErr := none }

/-- DetectContentType: plain mutator of the detection flag. -/
def DetectContentType (w : Writer) (b : Bool) : Writer :=
  { w with detectCt := b }

/-- mw.CreatePart: the framing writer emits the boundary line and the
given headers and returns a sink for the part body; with the in-memory
sink this never fails. -/
def mwCreatePart (w : Writer) (h : MIMEHeader) : Writer :=
  { w with trace := w.trace ++ [.partOpen h] }

/-- A write of body bytes through the part returned by CreatePart. -/
def mwWrite (w : Writer) (s : String) : Writer :=
  { w with trace := w.trace ++ [.bytes s] }

/-- The header CreateFormField of the standard mime/multipart package
builds for WriteField: note it uses the standard-library escaping, not
the escapeQuotes of this package. -/
def mwFieldHeader (fieldname : String) : MIMEHeader :=
  { contentDisposition := "form-data; name=\"" ++ multipartEscapeQuotes fieldname ++ "\""
    contentType := none }

/-- mw.WriteField of the standard mime/multipart package: CreateFormField
(which performs no emptiness validation) followed by writing the value
bytes; with the in-memory sink it returns no error. -/
def mwWriteField (w : Writer) (fieldname value : String) : Writer :=
  mwWrite (mwCreatePart w (mwFieldHeader fieldname)) value

/-- mw.Close: the framing writer emits the terminating boundary; with
the in-memory sink it reports no error. -/
def mwClose (w : Writer) : Writer × Option GoError :=
  ({ w with trace := w.trace ++ [.closeBoundary], mwCloseCount := w.mwCloseCount + 1 }, none)

/-- textFieldHeader of multipart.go (identical in both revisions). -/
def textFieldHeader (fieldname : String) : MIMEHeader :=
  { contentDisposition := "form-data; name=\"" ++ escapeQuotes fieldname ++ "\""
    contentType := none }

/-- WriteString of multipart.go (identical in both revisions): if no
error is latched, assign the result of mw.WriteField to firstErr (nil
with the in-memory sink); no validation of the field name. -/
def WriteString (w : Writer) (fieldname str : String) : Writer :=
  if w.firstErr = none then mwWriteField w fieldname str else w

/-- WriteStringCond (second revision): call WriteString when cond
returns true, otherwise return the writer unchanged. The Condition
callback is modelled by its boolean result. -/
def WriteStringCond (w : Writer) (fieldname str : String) (cond : Bool) : Writer :=
  if cond then WriteString w fieldname str else w

/-- WriteAnyTextField of multipart.go (identical in both revisions):
guarded by firstErr; latches on empty field name or nil value; then
creates a part with the disposition-only header and prints the value
into it. -/
def WriteAnyTextField (w : Writer) (fieldname : String) (val : Option GoValue) : Writer :=
  if w.firstErr = none then
    if fieldname = "" then { w with firstErr := some .emptyFieldName }
    else
      match val with
      | none => { w with firstErr := some .emptyFieldValue }
      | some _ => mwWrite (mwCreatePart w (textFieldHeader fieldname)) (fprintRenderAny val)
  else w

/-- WriteAnyTextFieldCond (second revision): guarded by firstErr and by
cond; latches on empty field name; re-tests cond; then creates the part
and prints the value. Unlike WriteAnyTextField it performs no nil check
on the value, so a nil value is printed rather than latched. -/
def WriteAnyTextFieldCond (w : Writer) (fieldname : String) (val : Option GoValue)
    (cond : Bool) : Writer :=
  if w.firstErr = none ∧ cond then
    if fieldname = "" then { w with firstErr := some .emptyFieldName }
    else if ¬ cond then w
    else mwWrite (mwCreatePart w (textFieldHeader fieldname)) (fprintRenderAny val)
  else w

/-- WriteInt: pass-through to WriteAnyTextField with the int boxed. -/
def WriteInt (w : Writer) (fieldname : String) (i : Int) : Writer :=
  WriteAnyTextField w fieldname (some (.int i))

/-- WriteIntCond (second revision). -/
def WriteIntCond (w : Writer) (fieldname : String) (i : Int) (cond : Bool) : Writer :=
  if cond then WriteAnyTextField w fieldname (some (.int i)) else w

/-- WriteBool: pass-through to WriteAnyTextField with the bool boxed. -/
def WriteBool (w : Writer) (fieldname : String) (b : Bool) : Writer :=
  WriteAnyTextField w fieldname (some (.bool b))

/-- WriteBoolCond (second revision). -/
def WriteBoolCond (w : Writer) (fieldname : String) (b : Bool) (cond : Bool) : Writer :=
  if cond then WriteAnyTextField w fieldname (some (.bool b)) else w

/-- WriteFloat32: pass-through to WriteAnyTextField with the float32
(carried as its exact value m times 2 to the e) boxed. -/
def WriteFloat32 (w : Writer) (fieldname : String) (m e : Int) : Writer :=
  WriteAnyTextField w fieldname (some (.float32 m e))

/-- WriteFloat32Cond (second revision). -/
def WriteFloat32Cond (w : Writer) (fieldname : String) (m e : Int) (cond : Bool) : Writer :=
  if cond then WriteAnyTextField w fieldname (some (.float32 m e)) else w

/-- WriteFloat64: pass-through to WriteAnyTextField with the float64
boxed. -/
def WriteFloat64 (w : Writer) (fieldname : String) (m e : Int) : Writer :=
  WriteAnyTextField w fieldname (some (.float64 m e))

/-- WriteFloat64Cond (second revision). -/
def WriteFloat64Cond (w : Writer) (fieldname : String) (m e : Int) (cond : Bool) : Writer :=
  if cond then WriteAnyTextField w fieldname (some (.float64 m e)) else w

/-- WriteJSON of multipart.go (identical in both revisions): guarded by
firstErr; latches on empty field name or nil value; creates a part with
the disposition-only header; the json.Encoder (HTML escaping off,
modelled by the arbitrary serializer jsonEnc) writes the serialization
followed by a newline, as Encoder.Encode does. -/
def WriteJSON (jsonEnc : Option GoValue → String) (w : Writer) (fieldname : String)
    (v : Option GoValue) : Writer :=
  if w.firstErr = none then
    if fieldname = "" then { w with firstErr := some .emptyFieldName }
    else
      match v with
      | none => { w with firstErr := some .emptyFieldValue }
      | some _ =>
        mwWrite (mwCreatePart w (textFieldHeader fieldname)) (jsonEnc v ++ "\n")
  else w

/-- WriteJSONCond (second revision): guarded by firstErr; latches on
empty field name BEFORE consulting cond; returns unchanged when cond is
false; otherwise encodes like WriteJSON but with no nil check on the
value. -/
def WriteJSONCond (jsonEnc : Option GoValue → String) (w : Writer) (fieldname : String)
    (v : Option GoValue) (cond : Bool) : Writer :=
  if w.firstErr = none then
    if fieldname = "" then { w with firstErr := some .emptyFieldName }
    else if ¬ cond then w
    else mwWrite (mwCreatePart w (textFieldHeader fieldname)) (jsonEnc v ++ "\n")
  else w

namespace V1

/-- fileFieldHeader of the first revision: takes the reader itself and
the detection flag; when detection is on, mimetype.DetectReader consumes
up to 3072 characters of the reader (its default read limit) to sniff,
and the Content-Type is set to the sniffed type; when detection is off,
no Content-Type key is set at all. Returns the header together with
what remains of the reader. The reader is in memory, so DetectReader
does not fail; detect is the black-box sniffing algorithm. -/
def fileFieldHeader (detect : String → String) (fieldname filename : String)
    (file : String) (detectCt : Bool) : MIMEHeader × String :=
  let h0 : MIMEHeader :=
    { contentDisposition :=
        "form-data; name=\"" ++ escapeQuotes fieldname ++ "\"; filename=\"" ++
          escapeQuotes filename ++ "\""
      contentType := none }
  if detectCt then
    ({ h0 with contentType := some (detect (String.mk (file.data.take 3072))) },
      String.mk (file.data.drop 3072))
  else (h0, file)

/-- WriteFile of the first revision: after the precondition checks, the
header is built (possibly consuming a sniffed head of the reader), the
part is created, and io.Copy writes what is left of the reader as the
part body. -/
def WriteFile (detect : String → String) (w : Writer) (fieldname filename : String)
    (file : Option String) : Writer :=
  if w.firstErr = none then
    if fieldname = "" then { w with firstErr := some .emptyFieldName }
    else if filename = "" then { w with firstErr := some .emptyFileName }
    else
      match file with
      | none => { w with firstErr := some .emptyFileReader }
      | some content =>
        let hr := fileFieldHeader detect fieldname filename content w.detectCt
        mwWrite (mwCreatePart w hr.1) hr.2
  else w

/-- Close of the first revision: when an error is latched, still call
mw.Close (emitting the terminating boundary) and return the latched
error; otherwise return the result of mw.Close. -/
def Close (w : Writer) : Writer × Option GoError :=
  match w.firstErr with
  | some e => ((mwClose w).1, some e)
  | none => mwClose w

end V1

namespace V2

/-- fileFieldHeader of the second revision: takes the already buffered
bytes (or nil when detection is off); a non-nil buffer is sniffed with
mimetype.Detect (a total function — it cannot fail) and the Content-Type
set to the result; a nil buffer gets application/octet-stream. -/
def fileFieldHeader (detect : String → String) (fieldname filename : String)
    (buf : Option String) : MIMEHeader :=
  let h0 : MIMEHeader :=
    { contentDisposition :=
        "form-data; name=\"" ++ escapeQuotes fieldname ++ "\"; filename=\"" ++
          escapeQuotes filename ++ "\""
      contentType := none }
  match buf with
  | some b => { h0 with contentType := some (detect b) }
  | none => { h0 with contentType := some "application/octet-stream" }

/-- WriteFile of the second revision: after the precondition checks,
io.ReadAll buffers the whole reader; the header is built from the
buffer (or from nil when detection is off); the part is created and the
same buffer is written as the body. -/
def WriteFile (detect : String → String) (w : Writer) (fieldname filename : String)
    (file : Option String) : Writer :=
  if w.firstErr = none then
    if fieldname = "" then { w with firstErr := some .emptyFieldName }
    else if filename = "" then { w with firstErr := some .emptyFileName }
    else
      match file with
      | none => { w with firstErr := some .emptyFileReader }
      | some content =>
        let h :=
          if w.detectCt then fileFieldHeader detect fieldname filename (some content)
          else fileFieldHeader detect fieldname filename none
        mwWrite (mwCreatePart w h) content
  else w

/-- Close of the second revision: when an error is latched, return it
immediately WITHOUT calling mw.Close; otherwise return the result of
mw.Close. -/
def Close (w : Writer) : Writer × Option GoError :=
  match w.firstErr with
  | some e => (w, some e)
  | none => mwClose w

end V2

/-- The Content-Disposition value of a file part, shared by both
revisions of fileFieldHeader. -/
def fileDisposition (fieldname filename : String) : String :=
  "form-data; name=\"" ++ escapeQuotes fieldname ++ "\"; filename=\"" ++
    escapeQuotes filename ++ "\""

/-- C1: firstError is sticky: once any write has latched an error,
every write operation of either revision (writeText, writeString,
writeJSON, writeFile and all their conditional and typed variants)
returns the writer completely unchanged — no bytes are appended to the
stream and firstError keeps its value — and close of either revision
returns exactly that first error. -/
theorem firstErr_sticky_writes_noop (jsonEnc : Option GoValue → String)
    (detect : String → String) (w : Writer) (err : GoError) (f s fn : String)
    (v : Option GoValue) (i m e : Int) (b c : Bool) (file : Option String)
    (h : w.firstErr = some err) :
    WriteString w f s = w ∧
    WriteStringCond w f s c = w ∧
    WriteAnyTextField w f v = w ∧
    WriteAnyTextFieldCond w f v c = w ∧
    WriteInt w f i = w ∧
    WriteIntCond w f i c = w ∧
    WriteBool w f b = w ∧
    WriteBoolCond w f b c = w ∧
    WriteFloat32 w f m e = w ∧
    WriteFloat32Cond w f m e c = w ∧
    WriteFloat64 w f m e = w ∧
    WriteFloat64Cond w f m e c = w ∧
    WriteJSON jsonEnc w f v = w ∧
    WriteJSONCond jsonEnc w f v c = w ∧
    V1.WriteFile detect w f fn file = w ∧
    V2.WriteFile detect w f fn file = w ∧
    (V1.Close w).2 = some err ∧
    (V2.Close w).2 = some err := by
  refine ⟨?_, ?_, ?_, ?_, ?_, ?_, ?_, ?_, ?_, ?_, ?_, ?_, ?_, ?_, ?_, ?_, ?_, ?_⟩ <;>
    simp [WriteString, WriteStringCond, WriteAnyTextField, WriteAnyTextFieldCond,
      WriteInt, WriteIntCond, WriteBool, WriteBoolCond, WriteFloat32, WriteFloat32Cond,
      WriteFloat64, WriteFloat64Cond, WriteJSON, WriteJSONCond,
      V1.WriteFile, V2.WriteFile, V1.Close, V2.Close, h]

/-- Witness for C1 at a concrete latched writer and concrete
arguments. -/
theorem firstErr_sticky_writes_noop_witness :
    WriteString { NewWriter with firstErr := some .emptyFieldName } "f" "x" =
      { NewWriter with firstErr := some .emptyFieldName } ∧
    (V2.Close { NewWriter with firstErr := some .emptyFieldName }).2 =
      some .emptyFieldName := by
  have h := firstErr_sticky_writes_noop (fun _ => "null") (fun _ => "text/plain")
    { NewWriter with firstErr := some .emptyFieldName } .emptyFieldName
    "f" "x" "a.txt" none 0 0 0 true true (some "data") rfl
  exact ⟨h.1, h.2.2.2.2.2.2.2.2.2.2.2.2.2.2.2.2.2⟩

/-- C2 counterexample: in the second revision, close on a writer with a
latched error does NOT invoke the frame-writer close: the close count
stays zero and no terminating boundary is written, refuting the claim
that close always invokes the frame-writer close. -/
theorem close_v2_no_frame_close_cex :
    (V2.Close { NewWriter with firstErr := some .emptyFieldName }).1.mwCloseCount = 0 ∧
    (V2.Close { NewWriter with firstErr := some .emptyFieldName }).1.trace = [] ∧
    (V2.Close { NewWriter with firstErr := some .emptyFieldName }).2 =
      some .emptyFieldName := by
  decide

/-- C2 amended: close of the FIRST revision always invokes the
frame-writer close (the terminating boundary is emitted even with zero
fields written) and returns the latched error if any, else the
frame-writer close result; close of the SECOND revision invokes the
frame-writer close only when no error is latched — with a latched error
it returns that error immediately, leaving the frame writer unclosed. -/
theorem close_behavior (w : Writer) :
    (V1.Close w).1.mwCloseCount = w.mwCloseCount + 1 ∧
    (V1.Close w).1.trace = w.trace ++ [.closeBoundary] ∧
    (V1.Close w).2 = (if w.firstErr = none then none else w.firstErr) ∧
    (w.firstErr = none → V2.Close w = mwClose w) ∧
    (∀ e, w.firstErr = some e → V2.Close w = (w, some e)) := by
  rcases hw : w.firstErr with _ | e <;>
    simp [V1.Close, V2.Close, mwClose, hw]

/-- Witness for C2 amended at a fresh writer. -/
theorem close_behavior_witness :
    (V1.Close NewWriter).1.trace = [.closeBoundary] ∧ V2.Close NewWriter = mwClose NewWriter := by
  have h := close_behavior NewWriter
  exact ⟨h.2.1, h.2.2.2.1 rfl⟩

/-- C4 counterexample: escapeQuotes maps the one-character string
consisting of a double quote to two backslashes, not to
backslash-quote: the quote character is dropped, so it is not
backslash-escaped as the claim states. -/
theorem escapeQuotes_quote_cex :
    escapeQuotes "\"" = "\\\\" ∧ ¬ escapeQuotes "\"" = "\\\"" := by
  decide

/-- C4 amended: the escaping replaces each backslash with two
backslashes and each double quote ALSO with two backslashes (the
replacement string for the quote in the source is the Go literal of two
backslashes, so the quote character itself is dropped); the single
left-to-right pass of the replacer coincides with applying the two
substitutions independently, one after the other, over the raw
string. -/
theorem escapeQuotes_two_independent_subs (s : String) :
    escapeQuotes s =
      String.mk (replaceChar '"' ['\\', '\\'] (replaceChar '\\' ['\\', '\\'] s.data)) := by
  have aux : ∀ l : List Char,
      quoteReplace l = replaceChar '"' ['\\', '\\'] (replaceChar '\\' ['\\', '\\'] l) := by
    intro l
    induction l with
    | nil => rfl
    | cons x xs ih =>
      by_cases hb : x = '\\'
      · subst hb
        simp [quoteReplace, replaceChar, ih]
      · by_cases hq : x = '"'
        · subst hq
          simp [quoteReplace, replaceChar, ih]
        · simp [quoteReplace, replaceChar, hb, hq, ih]
  simpa [escapeQuotes] using congrArg String.mk (aux s.data)

/-- C3 counterexample: in the first revision, a writeFile with
content-type detection disabled produces a part header with NO
Content-Type key at all, not application/octet-stream as the claim
states. -/
theorem fileHeader_v1_disabled_no_content_type_cex :
    (V1.WriteFile (fun _ => "application/octet-stream")
        (DetectContentType NewWriter false) "f" "a.bin" (some "x")).trace =
      [.partOpen { contentDisposition := "form-data; name=\"f\"; filename=\"a.bin\""
                   contentType := none },
       .bytes "x"] ∧
    (V1.WriteFile (fun _ => "application/octet-stream")
        (DetectContentType NewWriter false) "f" "a.bin" (some "x")).firstErr = none := by
  decide

/-- C3 amended: with valid arguments and no latched error, the SECOND
revision sets the Content-Type of the file part to the sniffed type of
the whole buffered payload when detection is enabled and to
application/octet-stream when detection is disabled (its sniffer is a
total function, so sniffing cannot fail), and never latches an error
for it; the FIRST revision, with detection enabled, sets the
Content-Type to the sniffed type of at most the first 3072 characters
of the stream, and with detection disabled sets NO Content-Type key at
all (and likewise sets none when its stream sniff fails) — in no case
does sniffing latch firstError. -/
theorem writeFile_content_type (detect : String → String) (w : Writer)
    (f fn content : String) (hw : w.firstErr = none) (hf : f ≠ "") (hn : fn ≠ "") :
    (w.detectCt = true →
      (V2.WriteFile detect w f fn (some content)).trace =
        w.trace ++ [.partOpen { contentDisposition := fileDisposition f fn
                                contentType := some (detect content) },
                    .bytes content]) ∧
    (w.detectCt = false →
      (V2.WriteFile detect w f fn (some content)).trace =
        w.trace ++ [.partOpen { contentDisposition := fileDisposition f fn
                                contentType := some "application/octet-stream" },
                    .bytes content]) ∧
    (V2.WriteFile detect w f fn (some content)).firstErr = none ∧
    (w.detectCt = true →
      (V1.WriteFile detect w f fn (some content)).trace =
        w.trace ++ [.partOpen { contentDisposition := fileDisposition f fn
                                contentType :=
                                  some (detect (String.mk (content.data.take 3072))) },
                    .bytes (String.mk (content.data.drop 3072))]) ∧
    (w.detectCt = false →
      (V1.WriteFile detect w f fn (some content)).trace =
        w.trace ++ [.partOpen { contentDisposition := fileDisposition f fn
                                contentType := none },
                    .bytes content]) ∧
    (V1.WriteFile detect w f fn (some content)).firstErr = none := by
  rcases hd : w.detectCt <;>
    simp [V1.WriteFile, V2.WriteFile, V1.fileFieldHeader, V2.fileFieldHeader,
      mwCreatePart, mwWrite, fileDisposition, hw, hf, hn, hd]

/-- Witness for C3 amended: a fresh writer (detection on) writing a
small text file gets the sniffed content type over the whole buffer in
the second revision. -/
theorem writeFile_content_type_witness :
    (V2.WriteFile (fun _ => "text/plain; charset=utf-8") NewWriter "file" "file.txt"
        (some "TEST DEEZ NUTS")).trace =
      [.partOpen { contentDisposition := fileDisposition "file" "file.txt"
                   contentType := some "text/plain; charset=utf-8" },
       .bytes "TEST DEEZ NUTS"] := by
  have h := writeFile_content_type (fun _ => "text/plain; charset=utf-8") NewWriter
    "file" "file.txt" "TEST DEEZ NUTS" rfl (by decide) (by decide)
  simpa using h.1 rfl

set_option maxRecDepth 100000

/-- C5, code bug in the first revision, at the exact input of the
repository test TestWriter_AnyWrites: with detection on (the default),
mimetype.DetectReader consumes up to 3072 bytes of the reader before the
part is created, and io.Copy then writes only what remains, so the
14-byte payload TEST DEEZ NUTS produces an EMPTY part body — the test
(and the claim) require the body to be the full payload, as the second
revision produces by buffering once and writing the same buffer. -/
theorem writeFile_v1_drops_sniffed_head :
    (V1.WriteFile (fun _ => "text/plain; charset=utf-8") NewWriter "file" "file.txt"
        (some "TEST DEEZ NUTS")).trace =
      [.partOpen { contentDisposition := fileDisposition "file" "file.txt"
                   contentType := some "text/plain; charset=utf-8" },
       .bytes ""] ∧
    (V2.WriteFile (fun _ => "text/plain; charset=utf-8") NewWriter "file" "file.txt"
        (some "TEST DEEZ NUTS")).trace =
      [.partOpen { contentDisposition := fileDisposition "file" "file.txt"
                   contentType := some "text/plain; charset=utf-8" },
       .bytes "TEST DEEZ NUTS"] := by
  decide

/-- C7 counterexample: WriteString performs no validation at all: with
an empty field name on a fresh writer it writes a part whose name is
empty (through the field shortcut of the frame writer, which reports no
error for it) and latches nothing — refuting the claim that every write
operation detects an empty field name before any I/O and latches an
InvalidArgument error. -/
theorem writeString_empty_name_cex :
    WriteString NewWriter "" "x" =
      { trace := [.partOpen { contentDisposition := "form-data; name=\"\""
                              contentType := none },
                  .bytes "x"]
        mwCloseCount := 0, detectCt := true, firstErr := none } := by
  decide

/-- C7 amended: in an accepting writer, writeText, writeJSON and
writeFile (both revisions) detect an empty field name, an empty file
name or a nil value/reader before any byte is appended and latch the
corresponding InvalidArgument error; writeString, however, performs no
such check: it always forwards to the field shortcut of the frame
writer, which writes the part (empty name included) and latches no
error. -/
theorem write_preconditions (jsonEnc : Option GoValue → String)
    (detect : String → String) (w : Writer) (f s fn : String) (v : Option GoValue)
    (file : Option String) (hw : w.firstErr = none) :
    WriteAnyTextField w "" v = { w with firstErr := some .emptyFieldName } ∧
    (f ≠ "" → WriteAnyTextField w f none = { w with firstErr := some .emptyFieldValue }) ∧
    WriteJSON jsonEnc w "" v = { w with firstErr := some .emptyFieldName } ∧
    (f ≠ "" → WriteJSON jsonEnc w f none = { w with firstErr := some .emptyFieldValue }) ∧
    V1.WriteFile detect w "" fn file = { w with firstErr := some .emptyFieldName } ∧
    (f ≠ "" → V1.WriteFile detect w f "" file = { w with firstErr := some .emptyFileName }) ∧
    (f ≠ "" → fn ≠ "" →
      V1.WriteFile detect w f fn none = { w with firstErr := some .emptyFileReader }) ∧
    V2.WriteFile detect w "" fn file = { w with firstErr := some .emptyFieldName } ∧
    (f ≠ "" → V2.WriteFile detect w f "" file = { w with firstErr := some .emptyFileName }) ∧
    (f ≠ "" → fn ≠ "" →
      V2.WriteFile detect w f fn none = { w with firstErr := some .emptyFileReader }) ∧
    WriteString w f s = mwWriteField w f s ∧
    (WriteString w "" s).firstErr = none ∧
    (WriteString w "" s).trace = w.trace ++ [.partOpen (mwFieldHeader ""), .bytes s] := by
  refine ⟨?_, ?_, ?_, ?_, ?_, ?_, ?_, ?_, ?_, ?_, ?_, ?_, ?_⟩ <;>
    simp [WriteAnyTextField, WriteJSON, V1.WriteFile, V2.WriteFile, WriteString,
      mwWriteField, mwCreatePart, mwWrite, hw]
  all_goals
    intro hf hn
    simp [hf, hn]

/-- Witness for C7 amended at concrete arguments. -/
theorem write_preconditions_witness :
    WriteAnyTextField NewWriter "" (some (.str "x")) =
      { NewWriter with firstErr := some .emptyFieldName } ∧
    WriteAnyTextField NewWriter "f" none =
      { NewWriter with firstErr := some .emptyFieldValue } ∧
    (WriteString NewWriter "" "x").firstErr = none := by
  have h := write_preconditions (fun _ => "null") (fun _ => "text/plain") NewWriter
    "f" "x" "a.txt" (some (.str "x")) (some "data") rfl
  exact ⟨h.1, h.2.1 (by decide), h.2.2.2.2.2.2.2.2.2.2.2.1⟩

/-- C6 counterexample: with a true predicate, a non-empty field and a
NIL value, the conditional text writer does NOT behave as writeText on
the same field and value: writeText latches the empty-field-value error
and writes nothing, while the conditional variant skips the nil check,
creates a part and prints the five characters of the Go nil placeholder
as its body, latching nothing. -/
theorem writeTextCond_nil_cex :
    WriteAnyTextFieldCond NewWriter "f" none true ≠ WriteAnyTextField NewWriter "f" none ∧
    (WriteAnyTextFieldCond NewWriter "f" none true).trace =
      [.partOpen (textFieldHeader "f"), .bytes "<nil>"] ∧
    (WriteAnyTextFieldCond NewWriter "f" none true).firstErr = none ∧
    WriteAnyTextField NewWriter "f" none =
      { NewWriter with firstErr := some .emptyFieldValue } := by
  decide

/-- C6 amended: when the predicate yields false the conditional text
writer is a pure no-op (no part, firstError untouched, no emptiness
check runs, even for an empty field or nil value); when it yields true
it behaves exactly as writeText whenever the value is non-nil, but the
nil-value check of writeText is skipped: a nil value is printed as the
Go nil placeholder text instead of latching an error. (The source also
consults the predicate a second time inside the taken branch.) -/
theorem writeTextCond_behavior (w : Writer) (f : String) (v : Option GoValue) (c : Bool) :
    (c = false → WriteAnyTextFieldCond w f v c = w) ∧
    (c = true → ∀ x, v = some x →
      WriteAnyTextFieldCond w f v c = WriteAnyTextField w f v) ∧
    (c = true → w.firstErr = none → f ≠ "" →
      (WriteAnyTextFieldCond w f none c).trace =
        w.trace ++ [.partOpen (textFieldHeader f), .bytes "<nil>"] ∧
      (WriteAnyTextFieldCond w f none c).firstErr = none) ∧
    (c = true → w.firstErr = none → f = "" →
      WriteAnyTextFieldCond w f v c = { w with firstErr := some .emptyFieldName }) := by
  refine ⟨?_, ?_, ?_, ?_⟩
  · rintro rfl
    rcases hw : w.firstErr <;>
      simp [WriteAnyTextFieldCond, hw]
  · rintro rfl x rfl
    rcases hw : w.firstErr <;>
      simp [WriteAnyTextFieldCond, WriteAnyTextField, fprintRenderAny, hw]
  · rintro rfl hw hf
    simp [WriteAnyTextFieldCond, fprintRenderAny, mwCreatePart, mwWrite, hw, hf]
  · rintro rfl hw rfl
    simp [WriteAnyTextFieldCond, hw]

/-- Witness for C6 amended: false predicate is a no-op even on an empty
field with a nil value; true predicate with a non-nil value matches
writeText. -/
theorem writeTextCond_behavior_witness :
    WriteAnyTextFieldCond NewWriter "" none false = NewWriter ∧
    WriteAnyTextFieldCond NewWriter "f" (some (.int 7)) true =
      WriteAnyTextField NewWriter "f" (some (.int 7)) := by
  exact ⟨(writeTextCond_behavior NewWriter "" none false).1 rfl,
    (writeTextCond_behavior NewWriter "f" (some (.int 7)) true).2.1 rfl (.int 7) rfl⟩

/-- C8: writeText on an accepting writer with a non-empty field and a
non-nil value appends exactly one part whose body is the canonical
textual form of the value (fprintRender, the default Go rendering:
decimal for ints, true/false for bools, the string itself, shortest
round-trip decimal for floats) and latches nothing; the typed wrappers
WriteInt, WriteBool, WriteFloat32 and WriteFloat64 are pure
pass-throughs to writeText with the boxed value; and the canonical
forms of the claim examples hold: the float32 and float64 values
nearest 0.42 (significands 14092861 and 7566047373982433 at exponents
-25 and -54) both render as 0.42, int 42 renders as 42, and bool false
renders as false. -/
theorem writeText_body_canonical (w : Writer) (f : String) (v : GoValue) (i m e : Int)
    (b : Bool) :
    (w.firstErr = none → f ≠ "" →
      (WriteAnyTextField w f (some v)).trace =
        w.trace ++ [.partOpen (textFieldHeader f), .bytes (fprintRender v)] ∧
      (WriteAnyTextField w f (some v)).firstErr = none) ∧
    WriteInt w f i = WriteAnyTextField w f (some (.int i)) ∧
    WriteBool w f b = WriteAnyTextField w f (some (.bool b)) ∧
    WriteFloat32 w f m e = WriteAnyTextField w f (some (.float32 m e)) ∧
    WriteFloat64 w f m e = WriteAnyTextField w f (some (.float64 m e)) ∧
    fprintRender (.float64 7566047373982433 (-54)) = "0.42" ∧
    fprintRender (.float32 14092861 (-25)) = "0.42" ∧
    fprintRender (.int 42) = "42" ∧
    fprintRender (.bool false) = "false" := by
  refine ⟨?_, rfl, rfl, rfl, rfl, by decide, by decide, by decide, by decide⟩
  intro hw hf
  simp [WriteAnyTextField, fprintRenderAny, mwCreatePart, mwWrite, hw, hf]

/-- Witness for C8 at the claim examples: a fresh writer produces the
body 0.42 for the float64 nearest 0.42 and the body 42 for int 42. -/
theorem writeText_body_canonical_witness :
    (WriteAnyTextField NewWriter "float64" (some (.float64 7566047373982433 (-54)))).trace =
      [.partOpen (textFieldHeader "float64"), .bytes "0.42"] ∧
    (WriteInt NewWriter "int" 42).trace =
      [.partOpen (textFieldHeader "int"), .bytes "42"] := by
  have h64 := writeText_body_canonical NewWriter "float64"
    (.float64 7566047373982433 (-54)) 42 0 0 false
  have hi := writeText_body_canonical NewWriter "int" (.int 42) 42 0 0 false
  refine ⟨?_, ?_⟩
  · have t := (h64.1 rfl (by decide)).1
    rw [h64.2.2.2.2.2.1] at t
    simpa using t
  · have t := (hi.1 rfl (by decide)).1
    rw [hi.2.2.2.2.2.2.2.1] at t
    rw [hi.2.1]
    simpa using t

/-- C9 counterexample: the conditional JSON writer does not skip a nil
value: with a true predicate and nil value it creates a part and writes
the serialized null plus newline, latching nothing, while writeJSON on
the same arguments latches the empty-field-value error — so the variant
neither skips on nil nor behaves as writeJSON there. -/
theorem writeJSONCond_nil_cex :
    (WriteJSONCond (fun _ => "null") NewWriter "f" none true).trace =
      [.partOpen (textFieldHeader "f"), .bytes "null\n"] ∧
    (WriteJSONCond (fun _ => "null") NewWriter "f" none true).firstErr = none ∧
    WriteJSON (fun _ => "null") NewWriter "f" none =
      { NewWriter with firstErr := some .emptyFieldValue } := by
  decide

/-- C9 amended: the conditional JSON writer is driven by an explicit
predicate, not by a nil check on the value: an empty field name latches
the error BEFORE the predicate is even consulted (so it is never
silently skipped, as the claim states); with a non-empty field and a
false predicate the call is a no-op; with a true predicate it behaves
exactly as writeJSON whenever the value is non-nil, but the nil-value
check of writeJSON is absent, so a nil value is serialized (to JSON
null plus newline) instead of latching an error. -/
theorem writeJSONCond_behavior (jsonEnc : Option GoValue → String) (w : Writer)
    (f : String) (v : Option GoValue) (c : Bool) :
    (w.firstErr = none → f = "" →
      WriteJSONCond jsonEnc w f v c = { w with firstErr := some .emptyFieldName }) ∧
    (f ≠ "" → c = false → WriteJSONCond jsonEnc w f v c = w) ∧
    (c = true → ∀ x, v = some x →
      WriteJSONCond jsonEnc w f v c = WriteJSON jsonEnc w f v) ∧
    (c = true → w.firstErr = none → f ≠ "" →
      (WriteJSONCond jsonEnc w f none c).trace =
        w.trace ++ [.partOpen (textFieldHeader f), .bytes (jsonEnc none ++ "\n")] ∧
      (WriteJSONCond jsonEnc w f none c).firstErr = none) := by
  refine ⟨?_, ?_, ?_, ?_⟩
  · rintro hw rfl
    simp [WriteJSONCond, hw]
  · rintro hf rfl
    rcases hw : w.firstErr <;>
      simp [WriteJSONCond, hw, hf]
  · rintro rfl x rfl
    rcases hw : w.firstErr <;>
      simp [WriteJSONCond, WriteJSON, hw]
  · rintro rfl hw hf
    simp [WriteJSONCond, mwCreatePart, mwWrite, hw, hf]

/-- Witness for C9 amended: an empty field name latches even with a
false predicate; a false predicate on a valid field is a no-op. -/
theorem writeJSONCond_behavior_witness :
    WriteJSONCond (fun _ => "null") NewWriter "" (some (.int 1)) false =
      { NewWriter with firstErr := some .emptyFieldName } ∧
    WriteJSONCond (fun _ => "null") NewWriter "f" (some (.int 1)) false = NewWriter := by
  exact ⟨(writeJSONCond_behavior (fun _ => "null") NewWriter "" (some (.int 1)) false).1
      rfl rfl,
    (writeJSONCond_behavior (fun _ => "null") NewWriter "f" (some (.int 1)) false).2.1
      (by decide) rfl⟩

/-- C10: on an accepting writer with a non-empty field and non-nil
value, writeJSON (and its conditional variant with a true predicate)
appends a part whose body is the JSON serialization of the value
followed by ONE newline character — the streaming json.Encoder appends
a newline after each value — and that body is never byte-identical to
the bare serialization. -/
theorem writeJSON_trailing_newline (jsonEnc : Option GoValue → String) (w : Writer)
    (f : String) (v : GoValue) (c : Bool) (hw : w.firstErr = none) (hf : f ≠ "") :
    (WriteJSON jsonEnc w f (some v)).trace =
      w.trace ++ [.partOpen (textFieldHeader f), .bytes (jsonEnc (some v) ++ "\n")] ∧
    (c = true →
      (WriteJSONCond jsonEnc w f (some v) c).trace =
        w.trace ++ [.partOpen (textFieldHeader f), .bytes (jsonEnc (some v) ++ "\n")]) ∧
    jsonEnc (some v) ++ "\n" ≠ jsonEnc (some v) := by
  refine ⟨?_, ?_, ?_⟩
  · simp [WriteJSON, mwCreatePart, mwWrite, hw, hf]
  · rintro rfl
    simp [WriteJSONCond, mwCreatePart, mwWrite, hw, hf]
  · intro hcontra
    have hlen := congrArg String.length hcontra
    rw [String.length_append] at hlen
    have hone : "\n".length = 1 := rfl
    omega

/-- Witness for C10 on a fresh writer with a concrete serializer. -/
theorem writeJSON_trailing_newline_witness :
    (WriteJSON (fun _ => "[1,2]") NewWriter "f" (some (.int 1))).trace =
      [.partOpen (textFieldHeader "f"), .bytes "[1,2]\n"] := by
  have h := writeJSON_trailing_newline (fun _ => "[1,2]") NewWriter "f"
    (.int 1) true rfl (by decide)
  simpa using h.1

end Formy
